import Mathlib

/-!
# Verification of the `focus_lock` session controller

Shallow embedding of the two source files `src/focus_lock.py` (variant B,
Pomodoro-style focus/break segments) and `src/main.py` (variant A, single
focus block) of the `silragon-ryu/focus_lock` repository.

Modelling conventions:
* Time is measured in whole seconds (`Nat`).  The worker thread polls twice a
  second; since every interval used by the program is a whole number of
  minutes, one model tick per second is exact for all segment boundaries, and
  the incidental sub-second delays inside handlers are ignored (idealized
  clock).
* OS interactions (keyboard hooks, window activation, taskbar, dialogs,
  subprocess launches) are modelled as an `Effect` trace emitted by each
  operation; the `keyboard` / `pygetwindow` / Qt calls themselves are external
  collaborators.
* Window-handle operations are modelled on their non-raising path; whether a
  window reference is present is carried as a flag, as in the source where a
  vanished window sets the reference to `None`.
-/

namespace FocusLock

/-- State of the worker-thread session loop of `run_focus_session`
(`src/focus_lock.py`, lines 668-799).  `now` is the current clock reading in
seconds, `sessionEnd` embeds `self.session_end_absolute_time`, `segmentEnd`
embeds `self.current_segment_end_time`, `isOnBreak` embeds `self.is_on_break`,
`sessionActive` embeds `self.session_active`, and `ended` records that the
`while` loop has been left. -/
structure SessionState where
  now : Nat
  sessionEnd : Nat
  segmentEnd : Nat
  isOnBreak : Bool
  sessionActive : Bool
  ended : Bool
deriving DecidableEq, Repr

/-- Embeds `next_focus_duration = min(self.focus_interval_minutes * 60, remaining_total)`
(`src/focus_lock.py`, line 745).  Computed in `Int` because
`remaining_total = self.session_end_absolute_time - current_time` is a signed
quantity in the source. -/
def nextFocusDuration (F now sessionEnd : Nat) : Int :=
  min (F : Int) ((sessionEnd : Int) - (now : Int))

/-- One iteration of the main session loop of `run_focus_session`
(`src/focus_lock.py`, lines 668-799), with the focus interval `F` and break
interval `B` in seconds.  The loop guard is
`while time.time() < self.session_end_absolute_time and self.session_active`;
a failing guard (or the `break` at line 749 when no focus time is left) sets
`ended`.  A surviving iteration processes the segment-transition block
(lines 672-750) and then advances the clock by one tick (the
`time.sleep(0.5)` at line 799). -/
def sessionStep (F B : Nat) (s : SessionState) : SessionState :=
  if s.ended then s
  else if s.sessionEnd ≤ s.now ∨ s.sessionActive = false then { s with ended := true }
  else if s.segmentEnd ≤ s.now then
    if s.isOnBreak then
      if 0 < nextFocusDuration F s.now s.sessionEnd then
        { s with isOnBreak := false,
                 segmentEnd := s.now + (nextFocusDuration F s.now s.sessionEnd).toNat,
                 now := s.now + 1 }
      else
        { s with isOnBreak := false, ended := true }
    else
      { s with isOnBreak := true, segmentEnd := s.now + B, now := s.now + 1 }
  else { s with now := s.now + 1 }

/-- Initial loop state produced by `start_focus` (`src/focus_lock.py`,
lines 533-537): total duration `D` seconds, first focus segment of `F`
seconds, focus mode, session active. -/
def initState (F D : Nat) : SessionState :=
  { now := 0, sessionEnd := D, segmentEnd := F, isOnBreak := false,
    sessionActive := true, ended := false }

/-- The session-loop state after `n` ticks. -/
def runTrace (F B D n : Nat) : SessionState :=
  (sessionStep F B)^[n] (initState F D)

/-- A completed focus↔break alternation is observed at a tick where the loop
is still live, the state is on break, and the break segment has exactly
reached its scheduled end. -/
def completedAlt (s : SessionState) : Bool :=
  !s.ended && s.isOnBreak && (s.segmentEnd == s.now)

/-- Number of completed focus↔break alternations over the whole run of a
session of `D` seconds (the loop is shown below to be finished after `D + 1`
ticks). -/
def altCount (F B D : Nat) : Nat :=
  ((Finset.range (D + 1)).filter (fun n => completedAlt (runTrace F B D n) = true)).card

/-- The trajectory invariant of the session loop: at tick `t ≤ D` the loop is
still live, the clock reads `t`, and the break flag / current segment end are
determined by the phase of the previous tick `u = t - 1` within the period
`F + B`: during the focus phase (`u % (F+B) < F`) the segment ends at the
start of the current period plus `F`, capped by the absolute session end;
during the break phase it ends exactly at the end of the current period. -/
def segSpec (F B D t : Nat) (σ : SessionState) : Prop :=
  σ.now = t ∧ σ.sessionEnd = D ∧ σ.sessionActive = true ∧ σ.ended = false ∧
  (t = 0 → σ.isOnBreak = false ∧ σ.segmentEnd = F) ∧
  (∀ u, t = u + 1 → u % (F + B) < F →
      σ.isOnBreak = false ∧
      σ.segmentEnd = min ((F + B) * (u / (F + B)) + F) D) ∧
  (∀ u, t = u + 1 → F ≤ u % (F + B) →
      σ.isOnBreak = true ∧
      σ.segmentEnd = (F + B) * (u / (F + B)) + (F + B))

inductive Effect where
  | beep (freq dur : Nat)
  | blockKey (k : String)
  | unblockKey (k : String)
  | sendKey (k : String)
  | showTaskbar
  | hideTaskbar
  | launchViewer
  | launchPlayer
  | relaunchViewer
  | relaunchPlayer
  | maximizeViewer
  | setViewerAlwaysOnTop
  | minimizeViewer
  | restoreViewer
  | activateViewer
  | raiseViewer
  | minimizePlayer
  | restorePlayer
  | activatePlayer
  | raisePlayer
  | activateOverlay
  | raiseOverlay
  | createOverlay
  | closeOverlay
  | addHotkeyF6
  | removeHotkeyF6
  | hideMainWindow
  | restoreMainWindow
  | startDisplayTimer
  | stopDisplayTimer
  | spawnWorker
  | showDialog (msg : String)
deriving DecidableEq, Repr

/-- The fixed key set of `block_shortcuts` / `unblock_shortcuts`
(`src/focus_lock.py`, lines 986 and 994; identical in `src/main.py`,
lines 604 and 612). -/
def shortcutKeys : List String := ["alt", "tab", "win", "esc", "ctrl", "f11"]

/-- Effects of `block_shortcuts` on its non-raising path
(`src/focus_lock.py`, lines 983-990). -/
def blockShortcutsEffects : List Effect := shortcutKeys.map Effect.blockKey

/-- Effects of `unblock_shortcuts` on its non-raising path
(`src/focus_lock.py`, lines 992-998). -/
def unblockShortcutsEffects : List Effect := shortcutKeys.map Effect.unblockKey

/-- Models `keyboard.unblock_key(key)` as a fallible operation: `fails key`
indicates that the OS-level unhook raises (e.g. nothing was blocked on a
platform where that raises). -/
def unblock_key (fails : String → Bool) (k : String) : Except String (List Effect) :=
  if fails k then Except.error k else Except.ok [Effect.unblockKey k]

/-- One iteration of the `unblock_shortcuts` loop body: the attempted
`keyboard.unblock_key(key)` sits inside `try/except Exception: pass`, so a
raising per-key unblock is swallowed and iteration continues; an error that
had already escaped would propagate. -/
def unblockStep (fails : String → Bool) (acc : Except String (List Effect))
    (k : String) : Except String (List Effect) :=
  match acc with
  | Except.error e => Except.error e
  | Except.ok effs =>
    match unblock_key fails k with
    | Except.ok e => Except.ok (effs ++ e)
    | Except.error _ => Except.ok effs

/-- Embeds `unblock_shortcuts` (`src/focus_lock.py`, lines 992-998): iterates the
guarded per-key unblock over the fixed key set. -/
def unblock_shortcuts (fails : String → Bool) : Except String (List Effect) :=
  shortcutKeys.foldl (unblockStep fails) (Except.ok [])

/-- Window/process configuration the enforcement code reads: which window
references are live (`pdf_window` / `spotify_window` are not `None`), whether
the launched processes are still running (`poll() is None`), and whether the
timer overlay is visible. -/
structure LoopCtx where
  pdfPresent : Bool
  spotPresent : Bool
  pdfProcRunning : Bool
  spotProcRunning : Bool
  overlayVisible : Bool
deriving DecidableEq, Repr

/-- Per-tick environment inputs: whether the OS-reported active window is in
the allowed-handles set or is the timer overlay itself (the `is_allowed`
computation of `src/focus_lock.py`, lines 754-763), and the minimized flags
of the two target windows. -/
structure EnvInput where
  isAllowed : Bool
  pdfMinimized : Bool
  spotMinimized : Bool
deriving DecidableEq, Repr

/-- The focus-enforcement block of one loop iteration
(`src/focus_lock.py`, lines 753-797): if the active window is not allowed,
re-activate the PDF viewer when its reference is live, else the Spotify
player when its reference is live; with both references gone, re-launch the
viewer if its process is still running (`poll() is None`), else the player if
its process is still running, and re-raise the overlay. -/
def enforcementTick (ctx : LoopCtx) (env : EnvInput) : List Effect :=
  if env.isAllowed then []
  else if ctx.pdfPresent then
    (if env.pdfMinimized then [Effect.restoreViewer] else [])
      ++ [Effect.activateViewer, Effect.raiseViewer]
  else if ctx.spotPresent then
    (if env.spotMinimized then [Effect.restorePlayer] else [])
      ++ [Effect.activatePlayer, Effect.raisePlayer]
  else
    (if ctx.pdfProcRunning then [Effect.relaunchViewer]
     else if ctx.spotProcRunning then [Effect.relaunchPlayer]
     else [])
      ++ (if ctx.overlayVisible then [Effect.activateOverlay, Effect.raiseOverlay]
          else [])

/-- Side effects of the Focused→OnBreak transition
(`src/focus_lock.py`, lines 673-697): break cue, unblock the general
shortcut set (F5 stays blocked), show the taskbar, minimize both target
windows. -/
def focusToBreakEffects (ctx : LoopCtx) : List Effect :=
  [Effect.beep 880 500] ++ unblockShortcutsEffects ++ [Effect.showTaskbar]
    ++ (if ctx.pdfPresent then [Effect.minimizeViewer] else [])
    ++ (if ctx.spotPresent then [Effect.minimizePlayer] else [])

/-- Side effects of the OnBreak→Focused transition
(`src/focus_lock.py`, lines 699-741): focus cue, re-block the general
shortcut set, hide the taskbar, re-activate the viewer (restoring it first if
minimized; F5 is not re-sent), restore/activate the player, re-raise the
overlay. -/
def breakToFocusEffects (ctx : LoopCtx) (env : EnvInput) : List Effect :=
  [Effect.beep 660 500] ++ blockShortcutsEffects ++ [Effect.hideTaskbar]
    ++ (if ctx.pdfPresent then
          (if env.pdfMinimized then [Effect.restoreViewer] else [])
            ++ [Effect.activateViewer, Effect.raiseViewer]
        else [])
    ++ (if ctx.spotPresent then
          [Effect.restorePlayer, Effect.activatePlayer, Effect.raisePlayer]
        else [])
    ++ (if ctx.overlayVisible then [Effect.activateOverlay, Effect.raiseOverlay]
        else [])

/-- The OS effects of one iteration of the session loop
(`src/focus_lock.py`, lines 668-799), mirroring the branch structure of
`sessionStep`: nothing once the loop guard fails; the transition effects when
the current segment has expired (after an OnBreak→Focused transition the same
iteration also runs the enforcement block, unless the loop exits because no
focus time is left); otherwise the enforcement block alone during focus, and
nothing during a break. -/
def sessionStepEffects (F B : Nat) (ctx : LoopCtx) (env : EnvInput)
    (σ : SessionState) : List Effect :=
  if σ.ended then []
  else if σ.sessionEnd ≤ σ.now ∨ σ.sessionActive = false then []
  else if σ.segmentEnd ≤ σ.now then
    if σ.isOnBreak then
      if 0 < nextFocusDuration F σ.now σ.sessionEnd then
        breakToFocusEffects ctx env ++ enforcementTick ctx env
      else breakToFocusEffects ctx env
    else focusToBreakEffects ctx
  else if σ.isOnBreak then []
  else enforcementTick ctx env

/-- Pre-loop effects of `run_focus_session` (`src/focus_lock.py`,
lines 566-665): block shortcuts, hide the taskbar, launch each application
whose executable path resolved, register the F6 hotkey once the player window
was discovered, and — once the viewer window was discovered — maximize and
activate it, send the fullscreen key F5 to it exactly once and immediately
block F5 for the rest of the session. -/
def launchEffects (viewerExeFound playerExeFound pdfFound spotFound
    pdfWasMaximized : Bool) : List Effect :=
  blockShortcutsEffects ++ [Effect.hideTaskbar]
    ++ (if viewerExeFound then [Effect.launchViewer] else [])
    ++ (if playerExeFound then [Effect.launchPlayer] else [])
    ++ (if spotFound then [Effect.addHotkeyF6] else [])
    ++ (if pdfFound then
          (if pdfWasMaximized then [] else [Effect.maximizeViewer])
            ++ [Effect.activateViewer, Effect.setViewerAlwaysOnTop,
                Effect.activateViewer, Effect.raiseViewer,
                Effect.sendKey "f5", Effect.blockKey "f5"]
        else [])

/-- Post-loop effects of `run_focus_session` (`src/focus_lock.py`,
lines 801-808), run on the worker thread as soon as the loop is left: unblock
the general shortcut set and explicitly unblock F5, then call `end_session`. -/
def loopExitRawEffects : List Effect :=
  unblockShortcutsEffects ++ [Effect.unblockKey "f5"]

/-- The mutable fields of the `ZenFocus` widget that the session lifecycle
operations read and write (`src/focus_lock.py`): `pdfPath` is
`self.pdf_path`, `sessionActive` is `self.session_active`, `isOnBreak` is
`self.is_on_break`, `sessionEnd`/`segmentEnd` are the absolute end
timestamps (`None` before a session), `f6Hotkey` is
`self.f6_hotkey_id is not None`, `spotifyRef` is
`self.spotify_window_ref is not None`, `overlay` is
`self.timer_overlay is not None`, `inputsEnabled` covers the
start/select/duration controls, `resetEnabled` the reset button,
`timerRunning` the 1s display timer, `mainVisible` the primary window. -/
structure AppState where
  pdfPath : Option String
  sessionActive : Bool
  isOnBreak : Bool
  sessionEnd : Option Nat
  segmentEnd : Option Nat
  f6Hotkey : Bool
  spotifyRef : Bool
  overlay : Bool
  inputsEnabled : Bool
  resetEnabled : Bool
  timerRunning : Bool
  mainVisible : Bool
deriving DecidableEq, Repr

/-- Python truthiness of `self.pdf_path` (`if not self.pdf_path:`): `None`
and the empty string are falsy. -/
def pathSelected : Option String → Bool
  | none => false
  | some s => !(s == "")

/-- Embeds `start_focus` (`src/focus_lock.py`, lines 527-560): with no PDF selected,
show a blocking warning dialog and return with nothing changed; otherwise
compute the absolute session end `now + dur * 60` and the first focus segment
end `now + F * 60`, mark the session active and in focus mode, create the
timer overlay, hide the main window, disable the input controls, enable
reset, start the display timer and spawn the worker thread. -/
def start_focus (now dur F : Nat) (st : AppState) : AppState × List Effect :=
  if pathSelected st.pdfPath = false then
    (st, [Effect.showDialog "Please select a PDF file first."])
  else
    ({ st with sessionActive := true, isOnBreak := false,
               sessionEnd := some (now + dur * 60),
               segmentEnd := some (now + F * 60),
               overlay := true, inputsEnabled := false, resetEnabled := true,
               timerRunning := true, mainVisible := false },
     [Effect.createOverlay, Effect.hideMainWindow, Effect.startDisplayTimer,
      Effect.spawnWorker])

/-- Embeds `end_session` (`src/focus_lock.py`, lines 889-934): an early return when
the session is not active; otherwise mark it inactive, unblock the general
shortcut set, show the taskbar, unregister the F6 hotkey if registered, drop
the player reference, close the overlay if present, restore the main window,
re-enable the input controls, disable reset, stop the display timer and show
the completion dialog. -/
def end_session (st : AppState) : AppState × List Effect :=
  if st.sessionActive = false then (st, [])
  else
    ({ st with sessionActive := false, f6Hotkey := false, spotifyRef := false,
               overlay := false, inputsEnabled := true, resetEnabled := false,
               timerRunning := false, mainVisible := true },
     unblockShortcutsEffects ++ [Effect.showTaskbar]
       ++ (if st.f6Hotkey then [Effect.removeHotkeyF6] else [])
       ++ (if st.overlay then [Effect.closeOverlay] else [])
       ++ [Effect.restoreMainWindow, Effect.stopDisplayTimer,
           Effect.showDialog "Focus Session Complete"])

/-- Embeds `reset_session` (`src/focus_lock.py`, lines 848-886): unconditionally
mark the session inactive (stopping the worker loop within one poll),
unblock the general shortcut set, show the taskbar, unregister the F6 hotkey
if registered, drop the player reference, close the overlay if present,
restore the main window, re-enable the input controls, disable reset, stop
the display timer and show the reset dialog.  Note F5 is not unblocked here;
that happens on the worker thread once its loop observes the inactive flag. -/
def reset_session (st : AppState) : AppState × List Effect :=
  ({ st with sessionActive := false, f6Hotkey := false, spotifyRef := false,
             overlay := false, inputsEnabled := true, resetEnabled := false,
             timerRunning := false, mainVisible := true },
   unblockShortcutsEffects ++ [Effect.showTaskbar]
     ++ (if st.f6Hotkey then [Effect.removeHotkeyF6] else [])
     ++ (if st.overlay then [Effect.closeOverlay] else [])
     ++ [Effect.restoreMainWindow, Effect.stopDisplayTimer,
         Effect.showDialog "Session Reset"])

/-- The worker thread's tail after its loop exits (`src/focus_lock.py`,
lines 801-809): unblock the general shortcut set, explicitly unblock F5, then
run `end_session`. -/
def sessionLoopExit (st : AppState) : AppState × List Effect :=
  ((end_session st).1, loopExitRawEffects ++ (end_session st).2)

/-- Observable resource state for the data-model invariant: whether a session
is active (`self.session_active`), whether the Allowed Window Set is
populated (`allowed_handles`, a local of the worker, non-empty once a target
window was discovered), and whether the F6 hotkey is registered
(`self.f6_hotkey_id is not None`). -/
structure LifeState where
  isActive : Bool
  allowedSetPopulated : Bool
  hotkeyRegistered : Bool
deriving DecidableEq, Repr

/-- The sequence of observable resource states over one complete naturally
ending session (`src/focus_lock.py`): Idle; after `start_focus` sets
`session_active = True` (line 535) while the worker is still launching and
discovering windows; after the F6 hotkey registration (line 623, only when
the player window was found); after `allowed_handles` is populated
(lines 661-665, non-empty only when some target window was found); after
`end_session` sets `session_active = False` (line 898); after the hotkey
removal a few statements later (line 905); and after the worker returns,
discarding its local allowed-handles set. -/
def lifecycleTrace (pdfFound spotFound : Bool) : List LifeState :=
  [⟨false, false, false⟩, ⟨true, false, false⟩]
    ++ (if spotFound then [⟨true, false, true⟩] else [])
    ++ [⟨true, pdfFound || spotFound, spotFound⟩,
        ⟨false, pdfFound || spotFound, spotFound⟩]
    ++ (if spotFound then [⟨false, pdfFound || spotFound, false⟩] else [])
    ++ [⟨false, false, false⟩]

/-- Boolean chain test over adjacent trace states. -/
def chainB (r : LifeState → LifeState → Bool) : List LifeState → Bool
  | a :: b :: rest => r a b && chainB r (b :: rest)
  | _ => true

/-- A step may create the given resource only while `isActive` is true. -/
def createdOnlyWhenActive (field : LifeState → Bool) (a b : LifeState) : Bool :=
  !(field b && !(field a)) || b.isActive

/-! ### Theorems -/

theorem runTrace_succ (F B D n : Nat) :
    runTrace F B D (n + 1) = sessionStep F B (runTrace F B D n) :=
  Function.iterate_succ_apply' (sessionStep F B) n (initState F D)

theorem sessionStep_ended (F B : Nat) (s : SessionState) (h : s.ended = true) :
    sessionStep F B s = s := by
  unfold sessionStep
  simp [h]

theorem sessionStep_guardStop (F B : Nat) (s : SessionState) (hE : s.ended = false)
    (h : s.sessionEnd ≤ s.now ∨ s.sessionActive = false) :
    sessionStep F B s = { s with ended := true } := by
  unfold sessionStep
  simp [hE, h]

theorem sessionStep_run (F B : Nat) (s : SessionState) (hE : s.ended = false)
    (hA : s.sessionActive = true) (hG : s.now < s.sessionEnd)
    (hS : s.now < s.segmentEnd) :
    sessionStep F B s = { s with now := s.now + 1 } := by
  unfold sessionStep
  simp [hE, hA, Nat.not_le.mpr hG, Nat.not_le.mpr hS]

theorem sessionStep_toBreak (F B : Nat) (s : SessionState) (hE : s.ended = false)
    (hA : s.sessionActive = true) (hG : s.now < s.sessionEnd)
    (hS : s.segmentEnd ≤ s.now) (hOB : s.isOnBreak = false) :
    sessionStep F B s =
      { s with isOnBreak := true, segmentEnd := s.now + B, now := s.now + 1 } := by
  unfold sessionStep
  simp [hE, hA, Nat.not_le.mpr hG, hS, hOB]

theorem sessionStep_toFocus (F B : Nat) (s : SessionState) (hE : s.ended = false)
    (hA : s.sessionActive = true) (hG : s.now < s.sessionEnd)
    (hS : s.segmentEnd ≤ s.now) (hOB : s.isOnBreak = true)
    (hpos : 0 < nextFocusDuration F s.now s.sessionEnd) :
    sessionStep F B s =
      { s with isOnBreak := false,
               segmentEnd := s.now + (nextFocusDuration F s.now s.sessionEnd).toNat,
               now := s.now + 1 } := by
  unfold sessionStep
  simp [hE, hA, Nat.not_le.mpr hG, hS, hOB, hpos]

theorem sessionStep_toEnd (F B : Nat) (s : SessionState) (hE : s.ended = false)
    (hA : s.sessionActive = true) (hG : s.now < s.sessionEnd)
    (hS : s.segmentEnd ≤ s.now) (hOB : s.isOnBreak = true)
    (hneg : nextFocusDuration F s.now s.sessionEnd ≤ 0) :
    sessionStep F B s = { s with isOnBreak := false, ended := true } := by
  unfold sessionStep
  simp [hE, hA, Nat.not_le.mpr hG, hS, hOB, Int.not_lt.mpr hneg]

theorem succ_mod_div_lt (u P : Nat) (hP : 0 < P) (h : u % P + 1 < P) :
    (u + 1) % P = u % P + 1 ∧ (u + 1) / P = u / P := by
  have e : u + 1 = (u % P + 1) + P * (u / P) := by
    have := Nat.div_add_mod u P
    omega
  constructor
  · rw [e, Nat.add_mul_mod_self_left, Nat.mod_eq_of_lt h]
  · rw [e, Nat.add_mul_div_left _ _ hP, Nat.div_eq_of_lt h, Nat.zero_add]

theorem succ_mod_div_eq (u P : Nat) (h : u % P + 1 = P) :
    (u + 1) % P = 0 ∧ (u + 1) / P = u / P + 1 := by
  have hP : 0 < P := by omega
  have e : u + 1 = P * (u / P + 1) := by
    have := Nat.div_add_mod u P
    rw [Nat.mul_succ]
    omega
  constructor
  · rw [e, Nat.mul_mod_right]
  · rw [e, Nat.mul_div_cancel_left _ hP]

theorem segSpec_holds (F B D : Nat) (hF : 0 < F) (hB : 0 < B) (hD : F + B ≤ D) :
    ∀ t, t ≤ D → segSpec F B D t (runTrace F B D t) := by
  intro t
  induction t with
  | zero =>
    intro _
    refine ⟨rfl, rfl, rfl, rfl, fun _ => ⟨rfl, rfl⟩, ?_, ?_⟩
    · intro u hu
      exact absurd hu (by omega)
    · intro u hu
      exact absurd hu (by omega)
  | succ t ih =>
    intro hle
    have htD : t < D := hle
    obtain ⟨hnow, hend, hact, hne, h0, hfoc, hbrk⟩ := ih (Nat.le_of_lt htD)
    set σ := runTrace F B D t with hσ
    rw [runTrace_succ, ← hσ]
    have hG : σ.now < σ.sessionEnd := by rw [hnow, hend]; exact htD
    rcases Nat.eq_zero_or_pos t with ht0 | htpos
    · -- processing tick 0: the first focus segment is under way, no transition
      subst ht0
      obtain ⟨hob, hseg⟩ := h0 rfl
      have hstep := sessionStep_run F B σ hne hact hG (by rw [hnow, hseg]; omega)
      rw [hstep]
      refine ⟨by show σ.now + 1 = 1; rw [hnow], hend, hact, hne,
        fun h => absurd h (by omega), ?_, ?_⟩
      · intro v hv _
        have hv0 : v = 0 := by omega
        subst hv0
        refine ⟨hob, ?_⟩
        show σ.segmentEnd = min ((F + B) * (0 / (F + B)) + F) D
        rw [hseg, Nat.zero_div, Nat.mul_zero, Nat.zero_add,
          Nat.min_eq_left (by omega)]
      · intro v hv hge
        have hv0 : v = 0 := by omega
        subst hv0
        rw [Nat.zero_mod] at hge
        exact absurd hge (by omega)
    · -- processing tick t = u + 1
      obtain ⟨u, rfl⟩ : ∃ u, t = u + 1 := ⟨t - 1, by omega⟩
      have hks := Nat.div_add_mod u (F + B)
      have hsP : u % (F + B) < F + B := Nat.mod_lt u (by omega)
      rcases Nat.lt_or_ge (u % (F + B)) F with hsF | hsF
      · -- previous tick was in a focus phase
        obtain ⟨hob, hseg⟩ := hfoc u rfl hsF
        rcases Nat.lt_or_ge (u % (F + B) + 1) F with hss | hss
        · -- focus phase continues: no transition at tick u + 1
          have hstep := sessionStep_run F B σ hne hact hG
            (by rw [hnow, hseg]; omega)
          rw [hstep]
          obtain ⟨hm, hd⟩ := succ_mod_div_lt u (F + B) (by omega) (by omega)
          refine ⟨by show σ.now + 1 = u + 1 + 1; rw [hnow], hend, hact, hne,
            fun h => absurd h (by omega), ?_, ?_⟩
          · intro v hv _
            have hv1 : v = u + 1 := by omega
            subst hv1
            refine ⟨hob, ?_⟩
            show σ.segmentEnd = min ((F + B) * ((u + 1) / (F + B)) + F) D
            rw [hd, hseg]
          · intro v hv hge
            have hv1 : v = u + 1 := by omega
            subst hv1
            rw [hm] at hge
            exact absurd hge (by omega)
        · -- the focus segment ends exactly now: transition to break
          have hssF : u % (F + B) + 1 = F := by omega
          have htrans : σ.segmentEnd ≤ σ.now := by rw [hnow, hseg]; omega
          have hstep := sessionStep_toBreak F B σ hne hact hG htrans hob
          rw [hstep]
          obtain ⟨hm, hd⟩ := succ_mod_div_lt u (F + B) (by omega) (by omega)
          refine ⟨by show σ.now + 1 = u + 1 + 1; rw [hnow], hend, hact, hne,
            fun h => absurd h (by omega), ?_, ?_⟩
          · intro v hv hlt
            have hv1 : v = u + 1 := by omega
            subst hv1
            rw [hm] at hlt
            exact absurd hlt (by omega)
          · intro v hv _
            have hv1 : v = u + 1 := by omega
            subst hv1
            refine ⟨rfl, ?_⟩
            show σ.now + B = (F + B) * ((u + 1) / (F + B)) + (F + B)
            rw [hd, hnow]
            omega
      · -- previous tick was in a break phase
        obtain ⟨hob, hseg⟩ := hbrk u rfl hsF
        rcases Nat.lt_or_ge (u % (F + B) + 1) (F + B) with hss | hss
        · -- break phase continues: no transition at tick u + 1
          have hstep := sessionStep_run F B σ hne hact hG
            (by rw [hnow, hseg]; omega)
          rw [hstep]
          obtain ⟨hm, hd⟩ := succ_mod_div_lt u (F + B) (by omega) hss
          refine ⟨by show σ.now + 1 = u + 1 + 1; rw [hnow], hend, hact, hne,
            fun h => absurd h (by omega), ?_, ?_⟩
          · intro v hv hlt
            have hv1 : v = u + 1 := by omega
            subst hv1
            rw [hm] at hlt
            exact absurd hlt (by omega)
          · intro v hv _
            have hv1 : v = u + 1 := by omega
            subst hv1
            refine ⟨hob, ?_⟩
            show σ.segmentEnd = (F + B) * ((u + 1) / (F + B)) + (F + B)
            rw [hd, hseg]
        · -- the break segment ends exactly now: transition back to focus
          have hssP : u % (F + B) + 1 = F + B := by omega
          have htrans : σ.segmentEnd ≤ σ.now := by rw [hnow, hseg]; omega
          have hpos : 0 < nextFocusDuration F σ.now σ.sessionEnd := by
            unfold nextFocusDuration
            rw [hnow, hend]
            omega
          have hstep := sessionStep_toFocus F B σ hne hact hG htrans hob hpos
          rw [hstep]
          have htn : (nextFocusDuration F σ.now σ.sessionEnd).toNat
              = min F (D - (u + 1)) := by
            unfold nextFocusDuration
            rw [hnow, hend]
            omega
          obtain ⟨hm, hd⟩ := succ_mod_div_eq u (F + B) hssP
          refine ⟨by show σ.now + 1 = u + 1 + 1; rw [hnow], hend, hact, hne,
            fun h => absurd h (by omega), ?_, ?_⟩
          · intro v hv _
            have hv1 : v = u + 1 := by omega
            subst hv1
            refine ⟨rfl, ?_⟩
            show σ.now + (nextFocusDuration F σ.now σ.sessionEnd).toNat
              = min ((F + B) * ((u + 1) / (F + B)) + F) D
            rw [htn, hd, Nat.mul_succ, hnow]
            omega
          · intro v hv hge
            have hv1 : v = u + 1 := by omega
            subst hv1
            rw [hm] at hge
            exact absurd hge (by omega)

theorem runTrace_finished (F B D : Nat) (hF : 0 < F) (hB : 0 < B) (hD : F + B ≤ D) :
    (runTrace F B D (D + 1)).ended = true ∧ (runTrace F B D (D + 1)).now = D := by
  obtain ⟨hnow, hend, hact, hne, -, -, -⟩ := segSpec_holds F B D hF hB hD D le_rfl
  rw [runTrace_succ, sessionStep_guardStop F B _ hne (Or.inl (by rw [hnow, hend]))]
  exact ⟨rfl, hnow⟩

theorem runTrace_stable_aux (F B D : Nat) (hF : 0 < F) (hB : 0 < B) (hD : F + B ≤ D) :
    ∀ m, runTrace F B D (D + 1 + m) = runTrace F B D (D + 1) := by
  intro m
  induction m with
  | zero => rfl
  | succ m ihm =>
    have : D + 1 + (m + 1) = (D + 1 + m) + 1 := by omega
    rw [this, runTrace_succ, ihm,
      sessionStep_ended F B _ (runTrace_finished F B D hF hB hD).1]

theorem runTrace_stable (F B D : Nat) (hF : 0 < F) (hB : 0 < B) (hD : F + B ≤ D)
    (n : Nat) (hn : D + 1 ≤ n) : runTrace F B D n = runTrace F B D (D + 1) := by
  obtain ⟨m, rfl⟩ : ∃ m, n = D + 1 + m := ⟨n - (D + 1), by omega⟩
  exact runTrace_stable_aux F B D hF hB hD m

/-- Within the run, a completed focus↔break alternation is observed exactly at
the positive multiples of the period `F + B` (up to the session end `D`). -/
theorem completedAlt_iff (F B D : Nat) (hF : 0 < F) (hB : 0 < B) (hD : F + B ≤ D)
    (t : Nat) (ht : t ≤ D) :
    completedAlt (runTrace F B D t) = true ↔ (0 < t ∧ t % (F + B) = 0) := by
  obtain ⟨hnow, hend, hact, hne, h0, hfoc, hbrk⟩ := segSpec_holds F B D hF hB hD t ht
  simp only [completedAlt, hne, hnow, Bool.not_false, Bool.true_and,
    Bool.and_eq_true, beq_iff_eq]
  rcases t with _ | u
  · constructor
    · rintro ⟨hob, -⟩
      rw [(h0 rfl).1] at hob
      exact absurd hob (by simp)
    · rintro ⟨h, -⟩
      exact absurd h (by omega)
  · have hks := Nat.div_add_mod u (F + B)
    have hsP : u % (F + B) < F + B := Nat.mod_lt u (by omega)
    rcases Nat.lt_or_ge (u % (F + B)) F with hsF | hsF
    · -- focus phase: no alternation completes, and u + 1 is not a period multiple
      obtain ⟨hob, -⟩ := hfoc u rfl hsF
      have hm : (u + 1) % (F + B) = u % (F + B) + 1 :=
        (succ_mod_div_lt u (F + B) (by omega) (by omega)).1
      constructor
      · rintro ⟨hb, -⟩
        rw [hob] at hb
        exact absurd hb (by simp)
      · rintro ⟨-, hmod⟩
        rw [hm] at hmod
        exact absurd hmod (by omega)
    · obtain ⟨hob, hseg⟩ := hbrk u rfl hsF
      rcases Nat.lt_or_ge (u % (F + B) + 1) (F + B) with hss | hss
      · -- break phase still running: the segment end lies strictly ahead
        have hm : (u + 1) % (F + B) = u % (F + B) + 1 :=
          (succ_mod_div_lt u (F + B) (by omega) hss).1
        constructor
        · rintro ⟨-, hse⟩
          rw [hseg] at hse
          exact absurd hse (by omega)
        · rintro ⟨-, hmod⟩
          rw [hm] at hmod
          exact absurd hmod (by omega)
      · -- the break segment ends exactly at t = u + 1: alternation completed
        have hssP : u % (F + B) + 1 = F + B := by omega
        have hm : (u + 1) % (F + B) = 0 := (succ_mod_div_eq u (F + B) hssP).1
        constructor
        · rintro -
          exact ⟨Nat.succ_pos u, hm⟩
        · rintro -
          exact ⟨hob, by rw [hseg]; omega⟩

theorem altCount_eq (F B D : Nat) (hF : 0 < F) (hB : 0 < B) (hD : F + B ≤ D) :
    altCount F B D = D / (F + B) := by
  unfold altCount
  have hset : ((Finset.range (D + 1)).filter
        (fun n => completedAlt (runTrace F B D n) = true))
      = (Finset.Ioc 0 D).filter (fun n => (F + B) ∣ n) := by
    ext n
    simp only [Finset.mem_filter, Finset.mem_range, Finset.mem_Ioc, Nat.lt_succ_iff]
    constructor
    · rintro ⟨hn, hc⟩
      obtain ⟨h0, hmod⟩ := (completedAlt_iff F B D hF hB hD n hn).mp hc
      exact ⟨⟨h0, hn⟩, Nat.dvd_of_mod_eq_zero hmod⟩
    · rintro ⟨⟨h0, hn⟩, hdvd⟩
      exact ⟨hn, (completedAlt_iff F B D hF hB hD n hn).mpr
        ⟨h0, Nat.mod_eq_zero_of_dvd hdvd⟩⟩
  rw [hset]
  exact Nat.Ioc_filter_dvd_card_eq_div D (F + B)

/-- C1: for every valid total duration `D` and segment lengths `F` (focus) and
`B` (break) with `F + B ≤ D`, the session loop run from start to natural end
produces exactly `D / (F + B)` full focus↔break alternations (`altCount`),
the last of which completes at tick `D / (F + B) * (F + B)` with none
completing later; the loop ends with the clock at `D`, so the final partial
segment — the run time after the last full alternation — has length
`D - D / (F + B) * (F + B) = D % (F + B)`. -/
theorem session_alternations_floor_div (F B D : Nat)
    (hF : 0 < F) (hB : 0 < B) (hD : F + B ≤ D) :
    altCount F B D = D / (F + B) ∧
    completedAlt (runTrace F B D (D / (F + B) * (F + B))) = true ∧
    (∀ t, completedAlt (runTrace F B D t) = true → t ≤ D / (F + B) * (F + B)) ∧
    (runTrace F B D (D + 1)).ended = true ∧
    (runTrace F B D (D + 1)).now = D ∧
    D - D / (F + B) * (F + B) = D % (F + B) := by
  refine ⟨altCount_eq F B D hF hB hD, ?_, ?_,
    (runTrace_finished F B D hF hB hD).1, (runTrace_finished F B D hF hB hD).2,
    by have := Nat.mod_add_div' D (F + B); omega⟩
  · have hq : 1 ≤ D / (F + B) := (Nat.one_le_div_iff (by omega)).mpr hD
    refine (completedAlt_iff F B D hF hB hD _ (Nat.div_mul_le_self D (F + B))).mpr
      ⟨Nat.mul_pos hq (by omega), Nat.mul_mod_left _ _⟩
  · intro t hct
    by_cases ht : t ≤ D
    · obtain ⟨h0, hmod⟩ := (completedAlt_iff F B D hF hB hD t ht).mp hct
      have h1 := Nat.mod_add_div' t (F + B)
      have h3 : t / (F + B) * (F + B) ≤ D / (F + B) * (F + B) :=
        Nat.mul_le_mul_right _ (Nat.div_le_div_right ht)
      omega
    · exfalso
      rw [runTrace_stable F B D hF hB hD t (by omega)] at hct
      unfold completedAlt at hct
      rw [(runTrace_finished F B D hF hB hD).1] at hct
      simp at hct

/-- Witness for the C1 theorem at `F = 2`, `B = 1`, `D = 7`: the run completes
`7 / 3 = 2` full alternations and ends with the clock at `7`. -/
theorem session_alternations_floor_div_witness :
    altCount 2 1 7 = 7 / (2 + 1) ∧ (runTrace 2 1 7 (7 + 1)).ended = true ∧
      (runTrace 2 1 7 (7 + 1)).now = 7 := by
  have h := session_alternations_floor_div 2 1 7 (by decide) (by decide) (by decide)
  exact ⟨h.1, h.2.2.2.1, h.2.2.2.2.1⟩

/-- C4: at every OnBreak→Focused transition point (loop live, on break,
segment expired), the next focus segment length is computed as
`min(focusInterval, sessionEndAbsoluteTime - now)` (`nextFocusDuration`); if
it is positive the loop starts a focus segment of exactly that length, and if
it is `≤ 0` the loop terminates (transition to Ending) instead. -/
theorem break_to_focus_next_segment (F B : Nat) (σ : SessionState)
    (hE : σ.ended = false) (hA : σ.sessionActive = true)
    (hG : σ.now < σ.sessionEnd) (hOB : σ.isOnBreak = true)
    (hS : σ.segmentEnd ≤ σ.now) :
    (0 < nextFocusDuration F σ.now σ.sessionEnd →
      sessionStep F B σ =
        { σ with isOnBreak := false,
                 segmentEnd := σ.now + (nextFocusDuration F σ.now σ.sessionEnd).toNat,
                 now := σ.now + 1 }) ∧
    (nextFocusDuration F σ.now σ.sessionEnd ≤ 0 →
      sessionStep F B σ = { σ with isOnBreak := false, ended := true }) :=
  ⟨fun hpos => sessionStep_toFocus F B σ hE hA hG hS hOB hpos,
   fun hneg => sessionStep_toEnd F B σ hE hA hG hS hOB hneg⟩

/-- Witness for the C4 theorem: a concrete OnBreak→Focused transition with
`F = 2`, session end `10`, clock `5` starts a focus segment ending at `7`. -/
theorem break_to_focus_next_segment_witness :
    sessionStep 2 1 ⟨5, 10, 4, true, true, false⟩ = ⟨6, 10, 7, false, true, false⟩ := by
  have h := (break_to_focus_next_segment 2 1 ⟨5, 10, 4, true, true, false⟩
    rfl rfl (by decide) rfl (by decide)).1 (by decide)
  exact h

/-- C2: on an enforcement tick whose active window is outside the allow-list
(and is not the overlay), exactly one activation call goes to the viewer
reference when it is present, otherwise exactly one to the player reference,
otherwise zero activation calls are issued to either. -/
theorem enforcement_single_activation (ctx : LoopCtx) (env : EnvInput)
    (h : env.isAllowed = false) :
    (enforcementTick ctx env).count Effect.activateViewer
        = (if ctx.pdfPresent then 1 else 0) ∧
    (enforcementTick ctx env).count Effect.activatePlayer
        = (if ctx.pdfPresent = false ∧ ctx.spotPresent = true then 1 else 0) := by
  rcases ctx with ⟨pp, sp, pr, sr, ov⟩
  rcases env with ⟨a, pm, sm⟩
  have ha : a = false := h
  subst ha
  cases pp <;> cases sp <;> cases pr <;> cases sr <;> cases ov <;>
    cases pm <;> cases sm <;> exact ⟨by decide, by decide⟩

/-- Witness for the C2 theorem: with the viewer reference present and a
disallowed active window, exactly one viewer activation and no player
activation is issued. -/
theorem enforcement_single_activation_witness :
    (enforcementTick ⟨true, true, true, true, true⟩ ⟨false, false, false⟩).count
        Effect.activateViewer = 1 ∧
    (enforcementTick ⟨true, true, true, true, true⟩ ⟨false, false, false⟩).count
        Effect.activatePlayer = 0 := by
  have h := enforcement_single_activation ⟨true, true, true, true, true⟩
    ⟨false, false, false⟩ rfl
  exact ⟨h.1, h.2⟩

/-- C3 counterexample: on a tick with both window references absent and both
external processes exited, the code attempts no relaunch at all (contradicting
"relaunch whichever external process has exited"); moreover, with the viewer
process still running — not exited — the tick does relaunch the viewer. -/
theorem enforcement_relaunch_counterexample :
    (Effect.relaunchViewer ∉
        enforcementTick ⟨false, false, false, false, true⟩ ⟨false, false, false⟩ ∧
     Effect.relaunchPlayer ∉
        enforcementTick ⟨false, false, false, false, true⟩ ⟨false, false, false⟩) ∧
    Effect.relaunchViewer ∈
        enforcementTick ⟨false, false, true, false, true⟩ ⟨false, false, false⟩ := by
  decide

/-- C3 (amended): on an enforcement tick with both window references absent,
the controller attempts to relaunch the viewer exactly when the viewer
process is still running, otherwise the player exactly when the player
process is still running; if both processes have exited nothing is
relaunched. -/
theorem enforcement_relaunch_running_process (ctx : LoopCtx) (env : EnvInput)
    (h : env.isAllowed = false) (hp : ctx.pdfPresent = false)
    (hs : ctx.spotPresent = false) :
    (Effect.relaunchViewer ∈ enforcementTick ctx env ↔ ctx.pdfProcRunning = true) ∧
    (Effect.relaunchPlayer ∈ enforcementTick ctx env ↔
      (ctx.pdfProcRunning = false ∧ ctx.spotProcRunning = true)) := by
  rcases ctx with ⟨pp, sp, pr, sr, ov⟩
  rcases env with ⟨a, pm, sm⟩
  have ha : a = false := h
  have hpp : pp = false := hp
  have hsp : sp = false := hs
  subst ha; subst hpp; subst hsp
  cases pr <;> cases sr <;> cases ov <;> cases pm <;> cases sm <;>
    exact ⟨by decide, by decide⟩

/-- Witness for the amended C3 theorem: with both windows gone, the viewer
process running and the player process exited, the viewer is relaunched. -/
theorem enforcement_relaunch_running_process_witness :
    Effect.relaunchViewer ∈
      enforcementTick ⟨false, false, true, false, true⟩ ⟨false, true, true⟩ :=
  (enforcement_relaunch_running_process ⟨false, false, true, false, true⟩
    ⟨false, true, true⟩ rfl rfl rfl).1.mpr rfl

theorem f5_not_in_tick (ctx : LoopCtx) (env : EnvInput) :
    Effect.sendKey "f5" ∉ enforcementTick ctx env ∧
    Effect.unblockKey "f5" ∉ enforcementTick ctx env := by
  rcases ctx with ⟨pp, sp, pr, sr, ov⟩
  rcases env with ⟨a, pm, sm⟩
  cases a <;> cases pp <;> cases sp <;> cases pr <;> cases sr <;> cases ov <;>
    cases pm <;> cases sm <;> exact ⟨by decide, by decide⟩

theorem f5_not_in_focusToBreak (ctx : LoopCtx) :
    Effect.sendKey "f5" ∉ focusToBreakEffects ctx ∧
    Effect.unblockKey "f5" ∉ focusToBreakEffects ctx := by
  rcases ctx with ⟨pp, sp, pr, sr, ov⟩
  cases pp <;> cases sp <;> cases pr <;> cases sr <;> cases ov <;>
    exact ⟨by decide, by decide⟩

theorem f5_not_in_breakToFocus (ctx : LoopCtx) (env : EnvInput) :
    Effect.sendKey "f5" ∉ breakToFocusEffects ctx env ∧
    Effect.unblockKey "f5" ∉ breakToFocusEffects ctx env := by
  rcases ctx with ⟨pp, sp, pr, sr, ov⟩
  rcases env with ⟨a, pm, sm⟩
  cases a <;> cases pp <;> cases sp <;> cases pr <;> cases sr <;> cases ov <;>
    cases pm <;> cases sm <;> exact ⟨by decide, by decide⟩

theorem f5_not_in_stepEffects (F B : Nat) (ctx : LoopCtx) (env : EnvInput)
    (σ : SessionState) :
    Effect.sendKey "f5" ∉ sessionStepEffects F B ctx env σ ∧
    Effect.unblockKey "f5" ∉ sessionStepEffects F B ctx env σ := by
  have hT := f5_not_in_tick ctx env
  have hFB := f5_not_in_focusToBreak ctx
  have hBF := f5_not_in_breakToFocus ctx env
  constructor <;> (unfold sessionStepEffects) <;> (repeat' split) <;>
    simp_all [List.mem_append]

/-- C6: in the break-segment variant, when the viewer window was found at
launch, F5 is sent exactly once during the launch sequence and blocked on the
very next keyboard call; no iteration of the session loop — break
transitions, focus resumptions, enforcement ticks — ever sends F5 again or
unblocks it, in any state and environment; the only F5 unblock is in the
worker's post-loop (session end) sequence. -/
theorem f5_sent_once_then_blocked :
    (∀ ve pe sf wm : Bool,
      (launchEffects ve pe true sf wm).count (Effect.sendKey "f5") = 1 ∧
      (launchEffects ve pe true sf wm).count (Effect.blockKey "f5") = 1 ∧
      Effect.unblockKey "f5" ∉ launchEffects ve pe true sf wm ∧
      (launchEffects ve pe true sf wm).indexOf (Effect.blockKey "f5")
        = (launchEffects ve pe true sf wm).indexOf (Effect.sendKey "f5") + 1) ∧
    (∀ (F B : Nat) (ctx : LoopCtx) (env : EnvInput) (σ : SessionState),
      Effect.sendKey "f5" ∉ sessionStepEffects F B ctx env σ ∧
      Effect.unblockKey "f5" ∉ sessionStepEffects F B ctx env σ) ∧
    Effect.unblockKey "f5" ∈ loopExitRawEffects := by
  refine ⟨?_, fun F B ctx env σ => f5_not_in_stepEffects F B ctx env σ, by decide⟩
  intro ve pe sf wm
  cases ve <;> cases pe <;> cases sf <;> cases wm <;>
    exact ⟨by decide, by decide, by decide, by decide⟩

/-- C5: whether the session reaches its end through natural expiry (the
worker loop exits and runs its tail plus `end_session`) or through a forced
reset (`reset_session`, followed by the worker tail on its next poll), the
controller unblocks every general shortcut and F5, shows the taskbar,
unregisters the F6 hotkey, closes the timer overlay, restores the primary
window, re-enables the input controls, and ends with `sessionActive = false`. -/
theorem session_end_cleanup (st : AppState) (hA : st.sessionActive = true)
    (hH : st.f6Hotkey = true) (hO : st.overlay = true) :
    ((sessionLoopExit st).1.sessionActive = false ∧
     (sessionLoopExit st).1.inputsEnabled = true ∧
     (∀ k ∈ shortcutKeys, Effect.unblockKey k ∈ (sessionLoopExit st).2) ∧
     Effect.unblockKey "f5" ∈ (sessionLoopExit st).2 ∧
     Effect.showTaskbar ∈ (sessionLoopExit st).2 ∧
     Effect.removeHotkeyF6 ∈ (sessionLoopExit st).2 ∧
     Effect.closeOverlay ∈ (sessionLoopExit st).2 ∧
     Effect.restoreMainWindow ∈ (sessionLoopExit st).2) ∧
    ((sessionLoopExit (reset_session st).1).1.sessionActive = false ∧
     (sessionLoopExit (reset_session st).1).1.inputsEnabled = true ∧
     (∀ k ∈ shortcutKeys, Effect.unblockKey k ∈
        (reset_session st).2 ++ (sessionLoopExit (reset_session st).1).2) ∧
     Effect.unblockKey "f5" ∈
        (reset_session st).2 ++ (sessionLoopExit (reset_session st).1).2 ∧
     Effect.showTaskbar ∈ (reset_session st).2 ∧
     Effect.removeHotkeyF6 ∈ (reset_session st).2 ∧
     Effect.closeOverlay ∈ (reset_session st).2 ∧
     Effect.restoreMainWindow ∈ (reset_session st).2) := by
  obtain ⟨pp, sa, ob, se, sg, f6, sr, ov, ie, re, tr, mv⟩ := st
  have h1 : sa = true := hA
  have h2 : f6 = true := hH
  have h3 : ov = true := hO
  subst h1; subst h2; subst h3
  refine ⟨⟨rfl, rfl, ?_, ?_, ?_, ?_, ?_, ?_⟩, ⟨rfl, rfl, ?_, ?_, ?_, ?_, ?_, ?_⟩⟩ <;>
    simp [sessionLoopExit, end_session, reset_session, loopExitRawEffects,
      unblockShortcutsEffects, shortcutKeys]

/-- Witness for the C5 theorem at a concrete fully-populated active state. -/
theorem session_end_cleanup_witness :
    (sessionLoopExit ⟨some "a.pdf", true, false, some 5400, some 1500,
        true, true, true, false, true, true, false⟩).1.sessionActive = false ∧
    Effect.unblockKey "f5" ∈ (sessionLoopExit ⟨some "a.pdf", true, false,
        some 5400, some 1500, true, true, true, false, true, true, false⟩).2 := by
  have h := session_end_cleanup ⟨some "a.pdf", true, false, some 5400, some 1500,
    true, true, true, false, true, true, false⟩ rfl rfl rfl
  exact ⟨h.1.1, h.1.2.2.2.1⟩

/-- C8: issuing the start command with no PDF selected shows the blocking
warning dialog and leaves every field of the controller state unchanged: the
session stays inactive, no end times are computed, and no worker thread is
spawned. -/
theorem start_focus_requires_pdf (now dur F : Nat) (st : AppState)
    (h : pathSelected st.pdfPath = false) (hA : st.sessionActive = false) :
    start_focus now dur F st
        = (st, [Effect.showDialog "Please select a PDF file first."]) ∧
    (start_focus now dur F st).1.sessionActive = false ∧
    (start_focus now dur F st).1.sessionEnd = st.sessionEnd ∧
    Effect.spawnWorker ∉ (start_focus now dur F st).2 := by
  have he : start_focus now dur F st
      = (st, [Effect.showDialog "Please select a PDF file first."]) := by
    unfold start_focus
    rw [h]
    simp
  refine ⟨he, ?_, by rw [he], by rw [he]; simp⟩
  rw [he]
  exact hA

/-- Witness for the C8 theorem: the idle state with no path selected is left
untouched by the start command. -/
theorem start_focus_requires_pdf_witness :
    start_focus 0 90 25 ⟨none, false, false, none, none, false, false, false,
        true, false, false, true⟩
      = (⟨none, false, false, none, none, false, false, false,
          true, false, false, true⟩,
         [Effect.showDialog "Please select a PDF file first."]) :=
  (start_focus_requires_pdf 0 90 25
    ⟨none, false, false, none, none, false, false, false, true, false, false, true⟩
    rfl rfl).1

/-- C10: calling `end_session` while the session is already inactive is a
strict no-op — same state, no OS effects, no dialog — and consequently the
cleanup runs at most once: after any `end_session`, a second call is a
no-op. -/
theorem end_session_inactive_noop (st : AppState) (h : st.sessionActive = false) :
    end_session st = (st, []) ∧
    (∀ st2 : AppState, end_session (end_session st2).1 = ((end_session st2).1, [])) := by
  obtain ⟨pp, sa, ob, se, sg, f6, sr, ov, ie, re, tr, mv⟩ := st
  have h1 : sa = false := h
  subst h1
  refine ⟨by simp [end_session], ?_⟩
  intro st2
  obtain ⟨pp2, sa2, ob2, se2, sg2, f62, sr2, ov2, ie2, re2, tr2, mv2⟩ := st2
  cases sa2 <;> simp [end_session]

/-- Witness for the C10 theorem at a concrete inactive state. -/
theorem end_session_inactive_noop_witness :
    end_session ⟨some "b.pdf", false, false, none, none, false, false, false,
        true, false, false, true⟩
      = (⟨some "b.pdf", false, false, none, none, false, false, false,
          true, false, false, true⟩, []) :=
  (end_session_inactive_noop _ rfl).1

theorem unblockStep_foldl_ok (fails : String → Bool) :
    ∀ (l : List String) (acc : List Effect),
      ∃ effs, l.foldl (unblockStep fails) (Except.ok acc) = Except.ok effs := by
  intro l
  induction l with
  | nil => exact fun acc => ⟨acc, rfl⟩
  | cons k rest ih =>
    intro acc
    rw [List.foldl_cons]
    by_cases hf : fails k = true
    · have hstep : unblockStep fails (Except.ok acc) k = Except.ok acc := by
        simp [unblockStep, unblock_key, hf]
      rw [hstep]
      exact ih acc
    · have hf2 : fails k = false := by revert hf; cases fails k <;> simp
      have hstep : unblockStep fails (Except.ok acc) k
          = Except.ok (acc ++ [Effect.unblockKey k]) := by
        simp [unblockStep, unblock_key, hf2]
      rw [hstep]
      exact ih (acc ++ [Effect.unblockKey k])

/-- C9: over the fixed key set alt, tab, win, esc, ctrl, F11, the
shortcut-unblock operation never propagates an exception to its caller, for
every pattern of per-key unblock failures — in particular when nothing is
blocked and every per-key unblock raises. -/
theorem unblock_shortcuts_never_raises :
    shortcutKeys = ["alt", "tab", "win", "esc", "ctrl", "f11"] ∧
    ∀ fails : String → Bool, ∃ effs, unblock_shortcuts fails = Except.ok effs :=
  ⟨rfl, fun fails => unblockStep_foldl_ok fails shortcutKeys []⟩

/-- C7 counterexample: in a session where both applications are found, the
trace contains a state (right after the start command, during launching)
where `isActive` is true but neither the Allowed Window Set nor the Hotkey
Registration exists — so "exist if and only if `isActive`" fails at that
point of execution. -/
theorem resources_iff_active_counterexample :
    ¬ (∀ s ∈ lifecycleTrace true true,
        s.allowedSetPopulated = s.isActive ∧ s.hotkeyRegistered = s.isActive) := by
  decide

/-- C7 (amended): the Allowed Window Set and the Hotkey Registration never
exist outside a session — before start and after cleanup completes neither
exists — and each is only ever created at a step where `isActive` is already
true; but existence is not equivalent to `isActive` at every point, since
creation lags activation during launching and release lags deactivation
during teardown. -/
theorem resources_within_active_session (pf sf : Bool) :
    (lifecycleTrace pf sf).head? = some ⟨false, false, false⟩ ∧
    (lifecycleTrace pf sf).getLast? = some ⟨false, false, false⟩ ∧
    chainB (createdOnlyWhenActive (fun s => s.allowedSetPopulated))
      (lifecycleTrace pf sf) = true ∧
    chainB (createdOnlyWhenActive (fun s => s.hotkeyRegistered))
      (lifecycleTrace pf sf) = true := by
  cases pf <;> cases sf <;> exact ⟨rfl, rfl, rfl, rfl⟩

end FocusLock
